import Mathlib

/-
Verification of the shader-IR validator (`src/valid/mod.rs`) against its
natural-language specification.

A shallow embedding: handles are `Nat` indices, the append-only arenas are
`List`s iterated in index order, and the orchestrator's mutable scratch
state (`Validator`) is passed explicitly.  The sub-passes that live in
modules absent from this excerpt (analyzer, type / global-variable /
function / entry-point checkers, and the `check_width` helper) are modelled
as parameters collected in `Hooks`; per the spec each of them is a pure
function of the entity it checks and the context it consumes.
-/

set_option autoImplicit false

namespace Naga

/-- Modelled from the spec: the shader stage tag carried by every entry
point (the IR enum itself lives outside this excerpt). -/
inductive ShaderStage
  | Vertex
  | Fragment
  | Compute
  deriving DecidableEq, Inhabited

/-- Modelled from the spec: the scalar kinds of the IR (outside this
excerpt); the validator only compares them for width compatibility. -/
inductive ScalarKind
  | Sint
  | Uint
  | Float
  | Bool
  deriving DecidableEq, Inhabited

/-- Modelled from the spec: a stored scalar value (outside this excerpt).
The validator only ever consults its kind, so the floating-point payload is
omitted. -/
inductive ScalarValue
  | Sint (v : Int)
  | Uint (v : Nat)
  | Float
  | Bool (b : Bool)
  deriving DecidableEq, Inhabited

/-- Kind of a stored scalar value, as used by `validate_constant`. -/
def ScalarValue.scalar_kind : ScalarValue → ScalarKind
  | .Sint _ => .Sint
  | .Uint _ => .Uint
  | .Float => .Float
  | .Bool _ => .Bool

/-- Array size: either a handle to a constant, or dynamic
(`crate::ArraySize`). -/
inductive ArraySize
  | Constant (h : Nat)
  | Dynamic
  deriving DecidableEq, Inhabited

/-- The tagged type variants (`crate::TypeInner`).  Payloads that the
validator source never inspects are omitted; the `Array` size is the one
payload the excerpt matches on. -/
inductive TypeInner
  | Scalar (kind : ScalarKind) (width : Nat)
  | Vector
  | Matrix
  | Pointer
  | ValuePointer
  | Array (size : ArraySize)
  | Struct
  | Image
  | Sampler
  deriving DecidableEq, Inhabited

/-- A type arena entry (source name: `crate::Type`). -/
structure Ty where
  name : Option String
  inner : TypeInner
  deriving DecidableEq, Inhabited

/-- Constant payload (`crate::ConstantInner`): scalar, or composite with a
declared type handle and ordered component handles. -/
inductive ConstantInner
  | Scalar (width : Nat) (value : ScalarValue)
  | Composite (ty : Nat) (components : List Nat)
  deriving DecidableEq, Inhabited

/-- A constant arena entry (`crate::Constant`). -/
structure Constant where
  name : Option String
  inner : ConstantInner
  deriving DecidableEq, Inhabited

/-- Modelled from the spec: a global variable; only its name is consulted
by the orchestrator, the rest is opaque payload for the (absent) checker. -/
structure GlobalVariable where
  name : Option String
  payload : Nat
  deriving DecidableEq, Inhabited

/-- Modelled from the spec: a function; only its name is consulted by the
orchestrator, the body is opaque payload for the (absent) checker. -/
structure Function where
  name : Option String
  payload : Nat
  deriving DecidableEq, Inhabited

/-- Modelled from the spec: an entry point is a (stage, name) pair plus
interface contents, opaque at this level (`crate::EntryPoint`). -/
structure EntryPoint where
  stage : ShaderStage
  name : String
  payload : Nat
  deriving DecidableEq, Inhabited

/-- The unit of validation (`crate::Module`): ordered arenas plus the entry
point list. -/
structure Module where
  types : List Ty
  constants : List Constant
  global_variables : List GlobalVariable
  functions : List Function
  entry_points : List EntryPoint
  deriving DecidableEq, Inhabited

/-- Validation flags (the `EXPRESSIONS` / `BLOCKS` /
`CONTROL_FLOW_UNIFORMITY` bitmask). -/
structure ValidationFlags where
  expressions : Bool
  blocks : Bool
  control_flow_uniformity : Bool
  deriving DecidableEq, Inhabited

/-- Modelled from the spec: per-type derived facts computed by the (absent)
type checker; opaque here. -/
structure TypeInfo where
  payload : Nat
  deriving DecidableEq, Inhabited

/-- Modelled from the spec: per-function analyzer facts, opaque here. -/
abbrev FunctionInfo := Nat

/-- Modelled from the spec: the analyzer's output (`ModuleInfo`): one
`FunctionInfo` per function plus one per entry point. -/
structure ModuleInfo where
  functions : List FunctionInfo
  entry_points : List FunctionInfo
  deriving DecidableEq, Inhabited

/-- Modelled from the spec: the external layout calculator's result,
opaque here. -/
structure Layouter where
  payload : Nat
  deriving DecidableEq, Inhabited

/-- Modelled from the spec: analyzer failure, opaque here. -/
structure AnalysisError where
  code : Nat
  deriving DecidableEq, Inhabited

/-- Modelled from the spec: type-checker failure, opaque here. -/
structure TypeError where
  code : Nat
  deriving DecidableEq, Inhabited

/-- Modelled from the spec: global-variable-checker failure, opaque here. -/
structure GlobalVariableError where
  code : Nat
  deriving DecidableEq, Inhabited

/-- Modelled from the spec: function-checker failure, opaque here. -/
structure FunctionError where
  code : Nat
  deriving DecidableEq, Inhabited

/-- Entry-point checker failure.  The `Conflict` variant is the one the
orchestrator itself produces; the other variants (varying errors, stage
rules, uniformity) live outside this excerpt and are modelled from the
spec as an opaque code. -/
inductive EntryPointError
  | Conflict
  | Other (code : Nat)
  deriving DecidableEq, Inhabited

/-- Constant-checker failure (`ConstantError`). -/
inductive ConstantError
  | InvalidType
  | UnresolvedComponent (h : Nat)
  | UnresolvedSize (h : Nat)
  deriving DecidableEq, Inhabited

/-- Top-level validation failure (`ValidationError`), wrapping the failing
entity's handle / display data around the nested error.  (`Type'` stands
for the source's `Type` variant, a reserved word in Lean.) -/
inductive ValidationError
  | Type' (handle : Nat) (name : String) (error : TypeError)
  | Constant (handle : Nat) (name : String) (error : ConstantError)
  | GlobalVariable (handle : Nat) (name : String) (error : GlobalVariableError)
  | Function (handle : Nat) (name : String) (error : FunctionError)
  | EntryPoint (stage : ShaderStage) (name : String) (error : EntryPointError)
  | Analysis (error : AnalysisError)
  | Corrupted
  deriving DecidableEq, Inhabited

/-- The validator's reusable scratch state (`struct Validator`).  Fields
other than `flags` and `types` are only touched by the absent sub-passes;
they are carried opaquely. -/
structure Validator where
  flags : ValidationFlags
  typifier : Nat
  types : List TypeInfo
  location_mask : List Nat
  bind_group_masks : List (List Nat)
  select_cases : List Int
  valid_expression_list : List Nat
  valid_expression_set : List Nat
  deriving DecidableEq, Inhabited

/-- The match of `Validator::validate_constant` on a Composite constant's
declared type (named here so it can be reasoned about on its own): a
Dynamic array is invalid, a Constant array size must resolve to an earlier
constant, and every other type variant is passed over (`_ => {}` in the
source). -/
def composite_type_check (handle : Nat) (ti : TypeInner) :
    Except ConstantError Unit :=
  match ti with
  | .Array .Dynamic => .error .InvalidType
  | .Array (.Constant size_handle) =>
    if handle ≤ size_handle then .error (.UnresolvedSize size_handle)
    else .ok ()
  | _ => .ok ()

/-- Translated from `Validator::validate_constant`.  `cw` is
`Validator::check_width`, an associated function defined outside this
excerpt and therefore passed as a parameter.  Arena dereference uses the
spec's contract that handles obtained from the arena never dangle, so a
default is supplied for the (never exercised) out-of-range case. -/
def validate_constant (cw : ScalarKind → Nat → Bool) (handle : Nat)
    (constants : List Constant) (types : List Ty) : Except ConstantError Unit :=
  let con := (constants[handle]?).getD default
  match con.inner with
  | .Scalar width value =>
    if !cw value.scalar_kind width then .error .InvalidType else .ok ()
  | .Composite ty components =>
    match composite_type_check handle ((types[ty]?).getD default).inner with
    | .error e => .error e
    | .ok _ =>
      match components.find? (fun comp => decide (handle ≤ comp)) with
      | some comp => .error (.UnresolvedComponent comp)
      | none => .ok ()

/-- Translated from `impl crate::TypeInner { fn is_sized }`. -/
def TypeInner.is_sized : TypeInner → Bool
  | .Scalar _ _ | .Vector | .Matrix
  | .Array (.Constant _)
  | .Pointer | .ValuePointer | .Struct => true
  | .Array .Dynamic | .Image | .Sampler => false

/-- Modelled from the spec: the validator's sub-passes that live in the
analyzer / type / interface / function modules, absent from this excerpt.
Per the spec each is a pure function of the checked entity and the context
it consumes (any per-entity scratch is reset before use, so scratch does
not influence results). -/
structure Hooks where
  check_width : ScalarKind → Nat → Bool
  module_info_new : Module → ValidationFlags → Except AnalysisError ModuleInfo
  layouter_new : List Ty → List Constant → Layouter
  validate_type : List TypeInfo → Ty → Nat → List Constant → Layouter →
    Except TypeError TypeInfo
  validate_global_var : List TypeInfo → GlobalVariable → List Ty →
    Except GlobalVariableError Unit
  validate_function : List TypeInfo → Function → FunctionInfo → Module →
    Except FunctionError Unit
  validate_entry_point : List TypeInfo → EntryPoint → FunctionInfo → Module →
    Except EntryPointError Unit

/-- The constants pass of `Validator::validate`: iterate the constant arena
in index order, wrapping the first failure with its handle and display
name. -/
def constantsLoop (cw : ScalarKind → Nat → Bool) (constants : List Constant)
    (types : List Ty) : Nat → List Constant → Except ValidationError Unit
  | _, [] => .ok ()
  | i, con :: rest =>
    match validate_constant cw i constants types with
    | .error e => .error (.Constant i (con.name.getD "") e)
    | .ok _ => constantsLoop cw constants types (i + 1) rest

/-- The types pass of `Validator::validate`: iterate the type arena in
index order, writing each computed `TypeInfo` into the scratch cache at its
handle; on failure the partially written cache is kept (as in the source,
where the writes have already happened). -/
def typesLoop (hooks : Hooks) (constants : List Constant) (layouter : Layouter) :
    List TypeInfo → Nat → List Ty → Except ValidationError Unit × List TypeInfo
  | cache, _, [] => (.ok (), cache)
  | cache, i, ty :: rest =>
    match hooks.validate_type cache ty i constants layouter with
    | .error e => (.error (.Type' i (ty.name.getD "") e), cache)
    | .ok info => typesLoop hooks constants layouter (cache.set i info) (i + 1) rest

/-- The global-variables pass of `Validator::validate`. -/
def globalsLoop (hooks : Hooks) (cache : List TypeInfo) (types : List Ty) :
    Nat → List GlobalVariable → Except ValidationError Unit
  | _, [] => .ok ()
  | i, var :: rest =>
    match hooks.validate_global_var cache var types with
    | .error e => .error (.GlobalVariable i (var.name.getD "") e)
    | .ok _ => globalsLoop hooks cache types (i + 1) rest

/-- The functions pass of `Validator::validate`; each function is checked
against its analyzer facts `mod_info[handle]`. -/
def functionsLoop (hooks : Hooks) (cache : List TypeInfo) (mod_info : ModuleInfo)
    (m : Module) : Nat → List Function → Except ValidationError Unit
  | _, [] => .ok ()
  | i, f :: rest =>
    match hooks.validate_function cache f (mod_info.functions.getD i 0) m with
    | .error e => .error (.Function i (f.name.getD "") e)
    | .ok _ => functionsLoop hooks cache mod_info m (i + 1) rest

/-- The (stage, name) key under which entry points are deduplicated. -/
def epKey (ep : EntryPoint) : ShaderStage × String :=
  (ep.stage, ep.name)

/-- The entry-points pass of `Validator::validate`: for each entry point in
order, first check its (stage, name) against the keys already seen
(`ep_map`), then run the deeper entry-point validation. -/
def entryPointsLoop (hooks : Hooks) (cache : List TypeInfo) (mod_info : ModuleInfo)
    (m : Module) : List (ShaderStage × String) → Nat → List EntryPoint →
    Except ValidationError Unit
  | _, _, [] => .ok ()
  | seen, index, ep :: rest =>
    if epKey ep ∈ seen then
      .error (.EntryPoint ep.stage ep.name .Conflict)
    else
      match hooks.validate_entry_point cache ep (mod_info.entry_points.getD index 0) m with
      | .error e => .error (.EntryPoint ep.stage ep.name e)
      | .ok _ =>
        entryPointsLoop hooks cache mod_info m (epKey ep :: seen) (index + 1) rest

/-- The result and the final types cache of one `validate` run, as a
function of the flags and the module.  `reset_types` (absent from the
excerpt; per the spec it clears the cache and resizes it to the type count)
is the `List.replicate` at the top.  The pass order is exactly that of the
source: analyzer, constants, types, globals, functions, entry points. -/
def validateResult (hooks : Hooks) (flags : ValidationFlags) (m : Module) :
    Except ValidationError ModuleInfo × List TypeInfo :=
  let cache0 := List.replicate m.types.length (default : TypeInfo)
  match hooks.module_info_new m flags with
  | .error e => (.error (.Analysis e), cache0)
  | .ok mod_info =>
    let layouter := hooks.layouter_new m.types m.constants
    match constantsLoop hooks.check_width m.constants m.types 0 m.constants with
    | .error e => (.error e, cache0)
    | .ok _ =>
      match typesLoop hooks m.constants layouter cache0 0 m.types with
      | (.error e, cache) => (.error e, cache)
      | (.ok _, cache) =>
        match globalsLoop hooks cache m.types 0 m.global_variables with
        | .error e => (.error e, cache)
        | .ok _ =>
          match functionsLoop hooks cache mod_info m 0 m.functions with
          | .error e => (.error e, cache)
          | .ok _ =>
            match entryPointsLoop hooks cache mod_info m [] 0 m.entry_points with
            | .error e => (.error e, cache)
            | .ok _ => (.ok mod_info, cache)

/-- Translated from `Validator::validate`, with the mutable receiver passed
and returned explicitly: the run reads the validator's `flags`, resets and
rewrites its `types` cache, and leaves every other field as the sub-passes
left it (opaque here). -/
def Validator.validate (hooks : Hooks) (v : Validator) (m : Module) :
    Except ValidationError ModuleInfo × Validator :=
  let r := validateResult hooks v.flags m
  (r.1, { v with types := r.2 })

/-- The full mutable world of one `validate` call: the validator scratch
state and the module.  The source takes the module by shared reference, so
the translated body writes only validator fields; the module component is
returned as it came in. -/
def validateWorld (hooks : Hooks) :
    Validator × Module → Except ValidationError ModuleInfo × (Validator × Module)
  | (v, m) =>
    let r := Validator.validate hooks v m
    (r.1, (r.2, m))

/-- The component scan of `validate_constant` finds nothing exactly when
every listed component handle is strictly below the constant's own index. -/
lemma find_ge_none_iff (handle : Nat) (comps : List Nat) :
    comps.find? (fun comp => decide (handle ≤ comp)) = none ↔
      ∀ c ∈ comps, c < handle := by
  simp [List.find?_eq_none, Nat.not_le]

/-- The component scan reports the first violating handle in listed order. -/
lemma find_ge_first (handle c : Nat) (l2 : List Nat) :
    ∀ l1 : List Nat, (∀ x ∈ l1, x < handle) → handle ≤ c →
      (l1 ++ c :: l2).find? (fun comp => decide (handle ≤ comp)) = some c := by
  intro l1
  induction l1 with
  | nil =>
    intro _ hc
    exact List.find?_cons_of_pos _ (by simpa using hc)
  | cons a l1 ih =>
    intro h1 hc
    have ha : a < handle := h1 a (by simp)
    rw [List.cons_append, List.find?_cons_of_neg _ (by simpa using Nat.not_le.2 ha)]
    exact ih (fun x hx => h1 x (by simp [hx])) hc

/-- On a non-Array type variant `composite_type_check` does nothing. -/
lemma composite_type_check_not_array (handle : Nat) (ti : TypeInner)
    (h : ∀ s, ti ≠ .Array s) : composite_type_check handle ti = .ok () := by
  cases ti <;> first | exact absurd rfl (h _) | rfl

/-- C4: a Composite constant whose declared type is an Array with Dynamic
size always fails constant validation with `ConstantError::InvalidType`. -/
theorem c4_dynamic_array_invalid (cw : ScalarKind → Nat → Bool) (handle : Nat)
    (constants : List Constant) (types : List Ty) (con : Constant) (ty : Nat)
    (comps : List Nat) (t : Ty)
    (hget : constants[handle]? = some con)
    (hinner : con.inner = .Composite ty comps)
    (hty : types[ty]? = some t)
    (htyinner : t.inner = .Array .Dynamic) :
    validate_constant cw handle constants types = .error .InvalidType := by
  unfold validate_constant
  simp only [hget, Option.getD_some, hinner, hty, htyinner]
  rfl

/-- C4 witness: a concrete dynamic-array composite is rejected. -/
theorem c4_dynamic_array_invalid_witness :
    validate_constant (fun _ _ => true) 0 [⟨none, .Composite 0 []⟩]
      [⟨none, .Array .Dynamic⟩] = .error .InvalidType :=
  c4_dynamic_array_invalid (fun _ _ => true) 0 _ _ ⟨none, .Composite 0 []⟩ 0 []
    ⟨none, .Array .Dynamic⟩ rfl rfl rfl rfl

/-- C5: a Composite constant whose declared type is an Array with a
Constant size handle not strictly below the constant's own index fails with
`UnresolvedSize` naming that handle; the size check precedes the component
check, so this holds for every component list (in particular when some
component handle also violates the ordering). -/
theorem c5_unresolved_size (cw : ScalarKind → Nat → Bool) (handle : Nat)
    (constants : List Constant) (types : List Ty) (con : Constant) (ty : Nat)
    (comps : List Nat) (t : Ty) (size_handle : Nat)
    (hget : constants[handle]? = some con)
    (hinner : con.inner = .Composite ty comps)
    (hty : types[ty]? = some t)
    (htyinner : t.inner = .Array (.Constant size_handle))
    (hle : handle ≤ size_handle) :
    validate_constant cw handle constants types =
      .error (.UnresolvedSize size_handle) := by
  unfold validate_constant
  simp only [hget, Option.getD_some, hinner, hty, htyinner]
  simp [composite_type_check, hle]

/-- C5 witness: both the size handle and a component handle violate the
ordering, and the reported error is `UnresolvedSize`. -/
theorem c5_unresolved_size_witness :
    validate_constant (fun _ _ => true) 0 [⟨none, .Composite 0 [0]⟩]
      [⟨none, .Array (.Constant 5)⟩] = .error (.UnresolvedSize 5) :=
  c5_unresolved_size (fun _ _ => true) 0 _ _ ⟨none, .Composite 0 [0]⟩ 0 [0]
    ⟨none, .Array (.Constant 5)⟩ 5 rfl rfl rfl rfl (by decide)

/-- C6: a Scalar constant fails with `InvalidType` exactly when the width
check on its declared width and stored value's kind fails, and passes
otherwise — no other check applies to it.  `check_width` itself is defined
outside this excerpt, so the statement holds for every width predicate. -/
theorem c6_scalar_width (cw : ScalarKind → Nat → Bool) (handle : Nat)
    (constants : List Constant) (types : List Ty) (con : Constant)
    (width : Nat) (value : ScalarValue)
    (hget : constants[handle]? = some con)
    (hinner : con.inner = .Scalar width value) :
    validate_constant cw handle constants types =
      if cw value.scalar_kind width then .ok () else .error .InvalidType := by
  unfold validate_constant
  simp only [hget, Option.getD_some, hinner]
  cases hc : cw value.scalar_kind width <;> simp [hc]

/-- C6 witness: under a failing width predicate a concrete scalar constant
is rejected with `InvalidType`. -/
theorem c6_scalar_width_witness :
    validate_constant (fun _ _ => false) 0 [⟨none, .Scalar 4 (.Bool true)⟩] []
      = .error .InvalidType := by
  have h := c6_scalar_width (fun _ _ => false) 0 [⟨none, .Scalar 4 (.Bool true)⟩]
    [] ⟨none, .Scalar 4 (.Bool true)⟩ 4 (.Bool true) rfl rfl
  simpa using h

/-- C7: `is_sized` is true exactly for Scalar, Vector, Matrix, Pointer,
ValuePointer, Struct and Constant-sized Array, and false for Dynamic Array,
Image and Sampler. -/
theorem c7_is_sized :
    (∀ k w, (TypeInner.Scalar k w).is_sized = true) ∧
    TypeInner.Vector.is_sized = true ∧
    TypeInner.Matrix.is_sized = true ∧
    TypeInner.Pointer.is_sized = true ∧
    TypeInner.ValuePointer.is_sized = true ∧
    TypeInner.Struct.is_sized = true ∧
    (∀ h, (TypeInner.Array (.Constant h)).is_sized = true) ∧
    (TypeInner.Array .Dynamic).is_sized = false ∧
    TypeInner.Image.is_sized = false ∧
    TypeInner.Sampler.is_sized = false :=
  ⟨fun _ _ => rfl, rfl, rfl, rfl, rfl, rfl, fun _ => rfl, rfl, rfl, rfl⟩

/-- C10: for a Composite constant whose declared type is not an Array of
any kind, constant validation applies no type- or shape-specific check: it
succeeds exactly when every component handle is strictly below the
constant's own index, whatever the components and the declared type are. -/
theorem c10_no_shape_check (cw : ScalarKind → Nat → Bool) (handle : Nat)
    (constants : List Constant) (types : List Ty) (con : Constant) (ty : Nat)
    (comps : List Nat) (t : Ty)
    (hget : constants[handle]? = some con)
    (hinner : con.inner = .Composite ty comps)
    (hty : types[ty]? = some t)
    (hnotarr : ∀ s, t.inner ≠ .Array s) :
    validate_constant cw handle constants types = .ok () ↔
      ∀ c ∈ comps, c < handle := by
  unfold validate_constant
  simp only [hget, Option.getD_some, hinner, hty,
    composite_type_check_not_array handle t.inner hnotarr]
  cases hf : comps.find? (fun comp => decide (handle ≤ comp)) with
  | none => simpa using (find_ge_none_iff handle comps).1 hf
  | some c =>
    have hmem := List.mem_of_find?_eq_some hf
    have hc : handle ≤ c := by simpa using List.find?_some hf
    constructor
    · intro h; cases h
    · intro hall; exact absurd (hall c hmem) (Nat.not_lt.2 hc)

/-- C10 witness: a Composite declaring a Struct type passes with components
that are strictly earlier, with no check that they match the type. -/
theorem c10_no_shape_check_witness :
    validate_constant (fun _ _ => true) 2
      [⟨none, .Scalar 4 .Float⟩, ⟨none, .Scalar 4 .Float⟩,
        ⟨none, .Composite 0 [1, 0]⟩]
      [⟨none, .Struct⟩] = .ok () := by
  have h := c10_no_shape_check (fun _ _ => true) 2
    [⟨none, .Scalar 4 .Float⟩, ⟨none, .Scalar 4 .Float⟩,
      ⟨none, .Composite 0 [1, 0]⟩]
    [⟨none, .Struct⟩] ⟨none, .Composite 0 [1, 0]⟩ 0 [1, 0] ⟨none, .Struct⟩
    rfl rfl rfl (by intro s h; cases h)
  exact h.2 (by decide)

/-- C2 counterexample: a constant listing itself as a component is
rejected, but not with `UnresolvedComponent` — the declared Dynamic-array
type is checked first, so the error is `InvalidType`. -/
theorem c2_counterexample :
    validate_constant (fun _ _ => true) 0 [⟨none, .Composite 0 [0]⟩]
        [⟨none, .Array .Dynamic⟩] = .error .InvalidType ∧
      ConstantError.InvalidType ≠ ConstantError.UnresolvedComponent 0 :=
  ⟨rfl, by simp⟩

/-- C2 (amended): composite constant validation succeeds only if every
component handle is strictly below the constant's own index; and when the
type-level checks pass (the declared type is not a Dynamic array, and a
Constant array size handle is strictly below the constant's index), a
violating component list is rejected with `UnresolvedComponent` naming the
first violating handle in listed order. -/
theorem c2_amended (cw : ScalarKind → Nat → Bool) (handle : Nat)
    (constants : List Constant) (types : List Ty) (con : Constant) (ty : Nat)
    (comps : List Nat)
    (hget : constants[handle]? = some con)
    (hinner : con.inner = .Composite ty comps) :
    (validate_constant cw handle constants types = .ok () →
      ∀ c ∈ comps, c < handle) ∧
    (∀ t l1 c l2, types[ty]? = some t →
      t.inner ≠ .Array .Dynamic →
      (∀ sh, t.inner = .Array (.Constant sh) → sh < handle) →
      comps = l1 ++ c :: l2 → (∀ x ∈ l1, x < handle) → handle ≤ c →
      validate_constant cw handle constants types =
        .error (.UnresolvedComponent c)) := by
  constructor
  · intro hok
    unfold validate_constant at hok
    simp only [hget, Option.getD_some, hinner] at hok
    cases hf : comps.find? (fun comp => decide (handle ≤ comp)) with
    | none => exact (find_ge_none_iff handle comps).1 hf
    | some c =>
      simp only [hf] at hok
      split at hok <;> simp at hok
  · intro t l1 c l2 hty hnotdyn hsz hsplit hpre hc
    have hsc : composite_type_check handle t.inner = .ok () := by
      cases ht : t.inner with
      | Array s =>
        cases s with
        | Dynamic => exact absurd ht hnotdyn
        | Constant sh =>
          have hlt : sh < handle := hsz sh ht
          simp [composite_type_check, Nat.not_le.2 hlt]
      | Scalar k w => rfl
      | Vector => rfl
      | Matrix => rfl
      | Pointer => rfl
      | ValuePointer => rfl
      | Struct => rfl
      | Image => rfl
      | Sampler => rfl
    have hfind := find_ge_first handle c l2 l1 hpre hc
    rw [← hsplit] at hfind
    unfold validate_constant
    simp only [hget, Option.getD_some, hinner, hty, hsc, hfind]

/-- C2 amended witness: with a Struct declared type, the first violating
component (the constant's own index) is reported in listed order. -/
theorem c2_amended_witness :
    validate_constant (fun _ _ => true) 2
      [⟨none, .Scalar 4 .Float⟩, ⟨none, .Scalar 4 .Float⟩,
        ⟨none, .Composite 0 [1, 2, 3]⟩]
      [⟨none, .Struct⟩] = .error (.UnresolvedComponent 2) :=
  (c2_amended (fun _ _ => true) 2
    [⟨none, .Scalar 4 .Float⟩, ⟨none, .Scalar 4 .Float⟩,
      ⟨none, .Composite 0 [1, 2, 3]⟩]
    [⟨none, .Struct⟩] ⟨none, .Composite 0 [1, 2, 3]⟩ 0 [1, 2, 3]
    rfl rfl).2 ⟨none, .Struct⟩ [1] 2 [3] rfl (by intro h; cases h)
    (by intro sh h; cases h) rfl (by decide) (by decide)

/-- A concrete instantiation of the absent sub-passes in which every deep
check succeeds; used to exercise the orchestrator on concrete modules. -/
def trivialHooks : Hooks :=
  ⟨fun _ _ => true, fun _ _ => .ok ⟨[], []⟩, fun _ _ => ⟨0⟩,
   fun _ _ _ _ _ => .ok ⟨0⟩, fun _ _ _ => .ok (), fun _ _ _ _ => .ok (),
   fun _ _ _ _ => .ok ()⟩

/-- A module with no content at all. -/
def emptyModule : Module := ⟨[], [], [], [], []⟩

/-- If every constant before a failing one passes, the constants pass stops
at the failing one and wraps its handle and display name. -/
lemma constantsLoop_first_err (cw : ScalarKind → Nat → Bool)
    (constants : List Constant) (types : List Ty) (c : Constant)
    (l2 : List Constant) (e : ConstantError) :
    ∀ (l1 : List Constant) (i : Nat),
      (∀ pos, pos < l1.length →
        validate_constant cw (i + pos) constants types = .ok ()) →
      validate_constant cw (i + l1.length) constants types = .error e →
      constantsLoop cw constants types i (l1 ++ c :: l2) =
        .error (.Constant (i + l1.length) (c.name.getD "") e) := by
  intro l1
  induction l1 with
  | nil =>
    intro i _ herr
    simp only [List.length_nil, Nat.add_zero] at herr ⊢
    simp only [List.nil_append, constantsLoop, herr]
  | cons a l1 ih =>
    intro i hpre herr
    have h0 : validate_constant cw i constants types = .ok () := by
      simpa using hpre 0 (by simp)
    simp only [List.cons_append, constantsLoop, h0]
    have hlen : i + (a :: l1).length = (i + 1) + l1.length := by
      simp only [List.length_cons]; omega
    rw [hlen] at herr ⊢
    exact ih (i + 1)
      (fun pos hp => by
        have h := hpre (pos + 1) (by simpa using Nat.succ_lt_succ hp)
        rwa [show i + (pos + 1) = (i + 1) + pos from by omega] at h)
      herr

/-- If every type before a failing one computes a `TypeInfo` (whatever the
cache state), the types pass stops at the failing one and wraps its handle
and display name. -/
lemma typesLoop_first_err (hooks : Hooks) (constants : List Constant)
    (layouter : Layouter) (t : Ty) (l2 : List Ty) (e : TypeError) :
    ∀ (l1 : List Ty) (cache : List TypeInfo) (i : Nat),
      (∀ pos (hp : pos < l1.length) (cache' : List TypeInfo), ∃ info,
        hooks.validate_type cache' (l1.get ⟨pos, hp⟩) (i + pos) constants
          layouter = .ok info) →
      (∀ cache' : List TypeInfo,
        hooks.validate_type cache' t (i + l1.length) constants layouter =
          .error e) →
      (typesLoop hooks constants layouter cache i (l1 ++ t :: l2)).1 =
        .error (.Type' (i + l1.length) (t.name.getD "") e) := by
  intro l1
  induction l1 with
  | nil =>
    intro cache i _ herr
    have h := herr cache
    simp only [List.length_nil, Nat.add_zero] at h ⊢
    simp only [List.nil_append, typesLoop, h]
  | cons a l1 ih =>
    intro cache i hpre herr
    obtain ⟨info, h0⟩ :
        ∃ info, hooks.validate_type cache a i constants layouter = .ok info :=
      hpre 0 (by simp) cache
    simp only [List.cons_append, typesLoop, h0]
    have hlen : i + (a :: l1).length = (i + 1) + l1.length := by
      simp only [List.length_cons]; omega
    rw [hlen] at herr ⊢
    exact ih (cache.set i info) (i + 1)
      (fun pos hp cache' => by
        have h : ∃ info', hooks.validate_type cache' (l1.get ⟨pos, hp⟩)
            (i + (pos + 1)) constants layouter = .ok info' :=
          hpre (pos + 1) (by simpa using Nat.succ_lt_succ hp) cache'
        rwa [show i + (pos + 1) = (i + 1) + pos from by omega] at h)
      herr

/-- If every global variable before a failing one passes, the globals pass
stops at the failing one and wraps its handle and display name. -/
lemma globalsLoop_first_err (hooks : Hooks) (cache : List TypeInfo)
    (types : List Ty) (g : GlobalVariable) (l2 : List GlobalVariable)
    (e : GlobalVariableError) :
    ∀ (l1 : List GlobalVariable) (i : Nat),
      (∀ x ∈ l1, hooks.validate_global_var cache x types = .ok ()) →
      hooks.validate_global_var cache g types = .error e →
      globalsLoop hooks cache types i (l1 ++ g :: l2) =
        .error (.GlobalVariable (i + l1.length) (g.name.getD "") e) := by
  intro l1
  induction l1 with
  | nil =>
    intro i _ herr
    simp only [List.length_nil, Nat.add_zero, List.nil_append, globalsLoop, herr]
  | cons a l1 ih =>
    intro i hpre herr
    have h0 : hooks.validate_global_var cache a types = .ok () :=
      hpre a (by simp)
    simp only [List.cons_append, globalsLoop, h0]
    have hlen : i + (a :: l1).length = (i + 1) + l1.length := by
      simp only [List.length_cons]; omega
    rw [hlen]
    exact ih (i + 1) (fun x hx => hpre x (by simp [hx])) herr

/-- If every function before a failing one passes (each checked against its
analyzer facts), the functions pass stops at the failing one and wraps its
handle and display name. -/
lemma functionsLoop_first_err (hooks : Hooks) (cache : List TypeInfo)
    (mi : ModuleInfo) (m : Module) (f : Function) (l2 : List Function)
    (e : FunctionError) :
    ∀ (l1 : List Function) (i : Nat),
      (∀ pos (hp : pos < l1.length),
        hooks.validate_function cache (l1.get ⟨pos, hp⟩)
          (mi.functions.getD (i + pos) 0) m = .ok ()) →
      hooks.validate_function cache f (mi.functions.getD (i + l1.length) 0) m =
        .error e →
      functionsLoop hooks cache mi m i (l1 ++ f :: l2) =
        .error (.Function (i + l1.length) (f.name.getD "") e) := by
  intro l1
  induction l1 with
  | nil =>
    intro i _ herr
    simp only [List.length_nil, Nat.add_zero] at herr ⊢
    simp only [List.nil_append, functionsLoop, herr]
  | cons a l1 ih =>
    intro i hpre herr
    have h0 : hooks.validate_function cache a (mi.functions.getD i 0) m = .ok () :=
      hpre 0 (by simp)
    simp only [List.cons_append, functionsLoop, h0]
    have hlen : i + (a :: l1).length = (i + 1) + l1.length := by
      simp only [List.length_cons]; omega
    rw [hlen] at herr ⊢
    exact ih (i + 1)
      (fun pos hp => by
        have h := hpre (pos + 1) (by simpa using Nat.succ_lt_succ hp)
        rw [show i + (pos + 1) = (i + 1) + pos from by omega] at h
        exact h)
      herr

/-- If some entry point's key is already in the seen set, or two entry
points in the remaining list share a key, the entry-point pass cannot
succeed. -/
lemma entryPointsLoop_ne_ok (hooks : Hooks) (cache : List TypeInfo)
    (mi : ModuleInfo) (m : Module) :
    ∀ (l : List EntryPoint) (seen : List (ShaderStage × String)) (i : Nat),
      ((∃ x ∈ l, epKey x ∈ seen) ∨
        (∃ a b j k, j < k ∧ l.get? j = some a ∧ l.get? k = some b ∧
          epKey a = epKey b)) →
      entryPointsLoop hooks cache mi m seen i l ≠ .ok () := by
  intro l
  induction l with
  | nil =>
    intro seen i h
    rcases h with ⟨x, hx, _⟩ | ⟨a, b, j, k, _, hj, _, _⟩
    · cases hx
    · cases hj
  | cons ep rest ih =>
    intro seen i h
    by_cases hmem : epKey ep ∈ seen
    · simp only [entryPointsLoop, if_pos hmem]
      intro hcontra; cases hcontra
    · simp only [entryPointsLoop, if_neg hmem]
      cases hdeep : hooks.validate_entry_point cache ep
          (mi.entry_points.getD i 0) m with
      | error e => intro hcontra; cases hcontra
      | ok _ =>
        apply ih (epKey ep :: seen) (i + 1)
        rcases h with ⟨x, hx, hxs⟩ | ⟨a, b, j, k, hjk, hj, hk, hab⟩
        · rcases List.mem_cons.1 hx with rfl | hx'
          · exact absurd hxs hmem
          · exact Or.inl ⟨x, hx', by simp [hxs]⟩
        · cases j with
          | zero =>
            have ha : ep = a := by simpa using hj
            cases k with
            | zero => omega
            | succ k' =>
              have hk' : rest.get? k' = some b := by simpa using hk
              refine Or.inl ⟨b, List.get?_mem hk', ?_⟩
              rw [List.mem_cons]
              exact Or.inl (by rw [← hab, ← ha])
          | succ j' =>
            cases k with
            | zero => omega
            | succ k' =>
              refine Or.inr ⟨a, b, j', k', by omega, ?_, ?_, hab⟩
              · simpa using hj
              · simpa using hk


/-- If the entry points before `d` all have fresh, pairwise-distinct keys
and pass their deeper validation, and `d`'s key collides with a seen key or
with one of theirs, the entry-point pass stops at `d` with a Conflict error
carrying `d`'s stage and name — whatever `d`'s own deeper validation would
say (the duplicate check comes first within `d`'s iteration). -/
lemma entryPointsLoop_conflict (hooks : Hooks) (cache : List TypeInfo)
    (mi : ModuleInfo) (m : Module) (d : EntryPoint) (l2 : List EntryPoint) :
    ∀ (l1 : List EntryPoint) (seen : List (ShaderStage × String)) (i : Nat),
      (∀ x ∈ l1, epKey x ∉ seen) →
      (l1.map epKey).Nodup →
      (∀ pos (hp : pos < l1.length),
        hooks.validate_entry_point cache (l1.get ⟨pos, hp⟩)
          (mi.entry_points.getD (i + pos) 0) m = .ok ()) →
      (epKey d ∈ seen ∨ ∃ x ∈ l1, epKey x = epKey d) →
      entryPointsLoop hooks cache mi m seen i (l1 ++ d :: l2) =
        .error (.EntryPoint d.stage d.name .Conflict) := by
  intro l1
  induction l1 with
  | nil =>
    intro seen i _ _ _ hd
    rcases hd with hd | ⟨x, hx, _⟩
    · simp only [List.nil_append, entryPointsLoop, if_pos hd]
    · cases hx
  | cons a l1 ih =>
    intro seen i hfresh hnodup hdeep hd
    rw [List.map_cons, List.nodup_cons] at hnodup
    have hmem : epKey a ∉ seen := hfresh a (by simp)
    have h0 : hooks.validate_entry_point cache a (mi.entry_points.getD i 0) m =
        .ok () := hdeep 0 (by simp)
    simp only [List.cons_append, entryPointsLoop, if_neg hmem, h0]
    apply ih (epKey a :: seen) (i + 1)
    · intro x hx
      simp only [List.mem_cons, not_or]
      refine ⟨fun hcontra => hnodup.1 ?_, hfresh x (List.mem_cons_of_mem a hx)⟩
      rw [← hcontra]
      exact List.mem_map_of_mem epKey hx
    · exact hnodup.2
    · intro pos hp
      have h := hdeep (pos + 1) (by simpa using Nat.succ_lt_succ hp)
      rwa [show i + (pos + 1) = (i + 1) + pos from by omega] at h
    · rcases hd with hd | ⟨x, hx, hxd⟩
      · exact Or.inl (List.mem_cons_of_mem _ hd)
      · rcases List.mem_cons.1 hx with rfl | hx'
        · exact Or.inl (by rw [← hxd]; exact List.mem_cons_self _ _)
        · exact Or.inr ⟨x, hx', hxd⟩

/-- If the entry points before `d` all have fresh, pairwise-distinct keys
and pass their deeper validation, and `d`'s key is fresh but its deeper
validation fails, the entry-point pass stops at `d` and wraps the deep
error with `d`'s stage and name. -/
lemma entryPointsLoop_deep_err (hooks : Hooks) (cache : List TypeInfo)
    (mi : ModuleInfo) (m : Module) (d : EntryPoint) (l2 : List EntryPoint)
    (e : EntryPointError) :
    ∀ (l1 : List EntryPoint) (seen : List (ShaderStage × String)) (i : Nat),
      (∀ x ∈ l1, epKey x ∉ seen) →
      (l1.map epKey).Nodup →
      (∀ pos (hp : pos < l1.length),
        hooks.validate_entry_point cache (l1.get ⟨pos, hp⟩)
          (mi.entry_points.getD (i + pos) 0) m = .ok ()) →
      epKey d ∉ seen →
      (∀ x ∈ l1, epKey x ≠ epKey d) →
      hooks.validate_entry_point cache d
        (mi.entry_points.getD (i + l1.length) 0) m = .error e →
      entryPointsLoop hooks cache mi m seen i (l1 ++ d :: l2) =
        .error (.EntryPoint d.stage d.name e) := by
  intro l1
  induction l1 with
  | nil =>
    intro seen i _ _ _ hdfresh _ herr
    simp only [List.length_nil, Nat.add_zero] at herr
    simp only [List.nil_append, entryPointsLoop, if_neg hdfresh, herr]
  | cons a l1 ih =>
    intro seen i hfresh hnodup hdeep hdfresh hne herr
    rw [List.map_cons, List.nodup_cons] at hnodup
    have hmem : epKey a ∉ seen := hfresh a (by simp)
    have h0 : hooks.validate_entry_point cache a (mi.entry_points.getD i 0) m =
        .ok () := hdeep 0 (by simp)
    simp only [List.cons_append, entryPointsLoop, if_neg hmem, h0]
    have hlen : i + (a :: l1).length = (i + 1) + l1.length := by
      simp only [List.length_cons]; omega
    rw [hlen] at herr
    apply ih (epKey a :: seen) (i + 1)
    · intro x hx
      simp only [List.mem_cons, not_or]
      refine ⟨fun hcontra => hnodup.1 ?_, hfresh x (List.mem_cons_of_mem a hx)⟩
      rw [← hcontra]
      exact List.mem_map_of_mem epKey hx
    · exact hnodup.2
    · intro pos hp
      have h := hdeep (pos + 1) (by simpa using Nat.succ_lt_succ hp)
      rwa [show i + (pos + 1) = (i + 1) + pos from by omega] at h
    · simp only [List.mem_cons, not_or]
      exact ⟨fun hcontra => (hne a (by simp)) hcontra.symm, hdfresh⟩
    · exact fun x hx => hne x (List.mem_cons_of_mem a hx)
    · exact herr

/-- C9: `validate` never mutates the input Module.  The source takes the
module by shared reference; in the state-passing embedding the mutable
world of a call is the (Validator, Module) pair, the translated body
writes only Validator fields, and the module comes back exactly as it went
in. -/
theorem c9_module_unchanged (hooks : Hooks) (v : Validator) (m : Module) :
    (validateWorld hooks (v, m)).2.2 = m := rfl

/-- C8: validating the same module twice with the reused (mutated)
Validator returns the same successful `ModuleInfo`.  A run reads the
validator state only through `flags`, which no run ever writes; the
`types` cache is reset at the start of every run. -/
theorem c8_idempotent (hooks : Hooks) (v : Validator) (m : Module)
    (info : ModuleInfo)
    (h : (Validator.validate hooks v m).1 = .ok info) :
    (Validator.validate hooks (Validator.validate hooks v m).2 m).1 =
      .ok info := h

/-- C8 witness: a concrete module validated twice through the mutated
validator state yields the same `ModuleInfo`. -/
theorem c8_idempotent_witness :
    (Validator.validate trivialHooks
        (Validator.validate trivialHooks default emptyModule).2 emptyModule).1 =
      .ok ⟨[], []⟩ :=
  c8_idempotent trivialHooks default emptyModule ⟨[], []⟩ rfl

/-- A module with a duplicate (stage, name) entry-point pair and an invalid
constant (a composite declared with a Dynamic-array type). -/
def dupEpModule : Module :=
  ⟨[⟨none, .Array .Dynamic⟩], [⟨none, .Composite 0 []⟩], [], [],
   [⟨.Vertex, "main", 0⟩, ⟨.Vertex, "main", 0⟩]⟩

/-- Hooks whose deep entry-point validation always fails. -/
def failEpHooks : Hooks :=
  ⟨fun _ _ => true, fun _ _ => .ok ⟨[], []⟩, fun _ _ => ⟨0⟩,
   fun _ _ _ _ _ => .ok ⟨0⟩, fun _ _ _ => .ok (), fun _ _ _ _ => .ok (),
   fun _ _ _ _ => .error (.Other 7)⟩

/-- A module whose only content is a duplicate (stage, name) entry-point
pair. -/
def dupOnlyModule : Module :=
  ⟨[], [], [], [], [⟨.Vertex, "main", 0⟩, ⟨.Vertex, "main", 0⟩]⟩

/-- C1 counterexample: a module with two entry points of identical
(stage, name) is not always rejected with `Conflict`.  First, an earlier
pass can fail first (here the constants pass).  Second, the duplicate check
is not module-wide before deeper validation: the first entry point's deeper
validation runs before the second entry point's duplicate check, so its
error wins. -/
theorem c1_counterexample :
    ((Validator.validate trivialHooks default dupEpModule).1 =
        .error (.Constant 0 "" .InvalidType) ∧
      ValidationError.Constant 0 "" .InvalidType ≠
        ValidationError.EntryPoint .Vertex "main" .Conflict) ∧
    ((Validator.validate failEpHooks default dupOnlyModule).1 =
        .error (.EntryPoint .Vertex "main" (.Other 7)) ∧
      ValidationError.EntryPoint .Vertex "main" (.Other 7) ≠
        ValidationError.EntryPoint .Vertex "main" .Conflict) :=
  ⟨⟨rfl, by decide⟩, ⟨rfl, by decide⟩⟩

/-- C1 (amended): a module containing two entry points with identical
(stage, name) is never accepted; and if validation reaches the entry-point
pass (analyzer, constants, types, globals and functions all pass) and every
entry point before the first duplicate passes its own deeper validation
with a fresh key, the module is rejected with `EntryPointError::Conflict`
carrying the duplicate's (stage, name) — regardless of what the duplicate
entry point's own deeper validation would say, because each entry point's
duplicate check runs before its own (but after earlier entry points')
deeper validation. -/
theorem c1_amended (hooks : Hooks) (v : Validator) (m : Module) :
    (∀ (i j : Nat) (a b : EntryPoint) (info : ModuleInfo),
      i < j → m.entry_points.get? i = some a →
      m.entry_points.get? j = some b → epKey a = epKey b →
      (Validator.validate hooks v m).1 ≠ .ok info) ∧
    (∀ (mi : ModuleInfo) (cache : List TypeInfo) (l1 : List EntryPoint)
        (d : EntryPoint) (l2 : List EntryPoint),
      hooks.module_info_new m v.flags = .ok mi →
      constantsLoop hooks.check_width m.constants m.types 0 m.constants =
        .ok () →
      typesLoop hooks m.constants (hooks.layouter_new m.types m.constants)
        (List.replicate m.types.length default) 0 m.types = (.ok (), cache) →
      globalsLoop hooks cache m.types 0 m.global_variables = .ok () →
      functionsLoop hooks cache mi m 0 m.functions = .ok () →
      m.entry_points = l1 ++ d :: l2 →
      (l1.map epKey).Nodup →
      (∃ x ∈ l1, epKey x = epKey d) →
      (∀ pos (hp : pos < l1.length),
        hooks.validate_entry_point cache (l1.get ⟨pos, hp⟩)
          (mi.entry_points.getD pos 0) m = .ok ()) →
      (Validator.validate hooks v m).1 =
        .error (.EntryPoint d.stage d.name .Conflict)) := by
  constructor
  · intro i j a b info hij hi hj hkey hok
    unfold Validator.validate validateResult at hok
    simp only [] at hok
    cases hA : hooks.module_info_new m v.flags with
    | error e => simp [hA] at hok
    | ok mi =>
      simp only [hA] at hok
      cases hC : constantsLoop hooks.check_width m.constants m.types 0
          m.constants with
      | error e => simp [hC] at hok
      | ok u =>
        simp only [hC] at hok
        rcases hT : typesLoop hooks m.constants
            (hooks.layouter_new m.types m.constants)
            (List.replicate m.types.length default) 0 m.types with ⟨res, cache⟩
        cases res with
        | error e => simp [hT] at hok
        | ok u2 =>
          simp only [hT] at hok
          cases hG : globalsLoop hooks cache m.types 0 m.global_variables with
          | error e => simp [hG] at hok
          | ok u3 =>
            simp only [hG] at hok
            cases hF : functionsLoop hooks cache mi m 0 m.functions with
            | error e => simp [hF] at hok
            | ok u4 =>
              simp only [hF] at hok
              cases hE : entryPointsLoop hooks cache mi m [] 0
                  m.entry_points with
              | error e => simp [hE] at hok
              | ok u5 =>
                exact entryPointsLoop_ne_ok hooks cache mi m m.entry_points
                  [] 0 (Or.inr ⟨a, b, i, j, hij, hi, hj, hkey⟩) hE
  · intro mi cache l1 d l2 hA hC hT hG hF hsplit hnodup hdup hdeep
    have hE := entryPointsLoop_conflict hooks cache mi m d l2 l1 [] 0
      (by simp) hnodup
      (fun pos hp => by
        rw [Nat.zero_add]
        exact hdeep pos hp)
      (Or.inr hdup)
    unfold Validator.validate validateResult
    simp only []
    simp only [hA, hC, hT, hG, hF]
    rw [hsplit]
    simp only [hE]

/-- A module with three entry points whose first and third share a key. -/
def epTripleModule : Module :=
  ⟨[], [], [], [],
   [⟨.Vertex, "a", 0⟩, ⟨.Fragment, "a", 0⟩, ⟨.Vertex, "a", 1⟩]⟩

/-- C1 amended witness: on a concrete module whose third entry point
duplicates the first, validation reports Conflict with the duplicate's
(stage, name), and the module is not accepted. -/
theorem c1_amended_witness :
    (Validator.validate trivialHooks default epTripleModule).1 =
        .error (.EntryPoint .Vertex "a" .Conflict) ∧
      (Validator.validate trivialHooks default epTripleModule).1 ≠
        .ok ⟨[], []⟩ := by
  constructor
  · exact (c1_amended trivialHooks default epTripleModule).2 ⟨[], []⟩ []
      [⟨.Vertex, "a", 0⟩, ⟨.Fragment, "a", 0⟩] ⟨.Vertex, "a", 1⟩ []
      rfl rfl rfl rfl rfl rfl (by decide)
      ⟨⟨.Vertex, "a", 0⟩, List.mem_cons_self _ _, rfl⟩ (fun _ _ => rfl)
  · exact (c1_amended trivialHooks default epTripleModule).1 0 2
      ⟨.Vertex, "a", 0⟩ ⟨.Vertex, "a", 1⟩ ⟨[], []⟩ (by decide) rfl rfl rfl

/-- C3: `validate` runs Analyzer, Constants, Types, Globals, Functions,
EntryPoints in that fixed order; each pass iterates its arena in index
order and stops at the first failing entity, wrapping its error with the
entity's identifying data (handle and display name; stage and name for an
entry point).  Each conjunct assumes only that the earlier passes succeed
and that the entities before the failing one pass, and fixes the result of
the whole run — for every behavior of the remaining checkers, so no entity
after the first failure (in the same pass or any later pass) can influence
the outcome. -/
theorem c3_pass_order (hooks : Hooks) (v : Validator) (m : Module) :
    (∀ e, hooks.module_info_new m v.flags = .error e →
      (Validator.validate hooks v m).1 = .error (.Analysis e)) ∧
    (∀ (mi : ModuleInfo) (l1 : List Constant) (c : Constant)
        (l2 : List Constant) (e : ConstantError),
      hooks.module_info_new m v.flags = .ok mi →
      m.constants = l1 ++ c :: l2 →
      (∀ pos, pos < l1.length →
        validate_constant hooks.check_width pos m.constants m.types = .ok ()) →
      validate_constant hooks.check_width l1.length m.constants m.types =
        .error e →
      (Validator.validate hooks v m).1 =
        .error (.Constant l1.length (c.name.getD "") e)) ∧
    (∀ (mi : ModuleInfo) (l1 : List Ty) (t : Ty) (l2 : List Ty)
        (e : TypeError),
      hooks.module_info_new m v.flags = .ok mi →
      constantsLoop hooks.check_width m.constants m.types 0 m.constants =
        .ok () →
      m.types = l1 ++ t :: l2 →
      (∀ pos (hp : pos < l1.length) (cache' : List TypeInfo), ∃ info,
        hooks.validate_type cache' (l1.get ⟨pos, hp⟩) pos m.constants
          (hooks.layouter_new m.types m.constants) = .ok info) →
      (∀ cache' : List TypeInfo,
        hooks.validate_type cache' t l1.length m.constants
          (hooks.layouter_new m.types m.constants) = .error e) →
      (Validator.validate hooks v m).1 =
        .error (.Type' l1.length (t.name.getD "") e)) ∧
    (∀ (mi : ModuleInfo) (cache : List TypeInfo) (l1 : List GlobalVariable)
        (g : GlobalVariable) (l2 : List GlobalVariable)
        (e : GlobalVariableError),
      hooks.module_info_new m v.flags = .ok mi →
      constantsLoop hooks.check_width m.constants m.types 0 m.constants =
        .ok () →
      typesLoop hooks m.constants (hooks.layouter_new m.types m.constants)
        (List.replicate m.types.length default) 0 m.types = (.ok (), cache) →
      m.global_variables = l1 ++ g :: l2 →
      (∀ x ∈ l1, hooks.validate_global_var cache x m.types = .ok ()) →
      hooks.validate_global_var cache g m.types = .error e →
      (Validator.validate hooks v m).1 =
        .error (.GlobalVariable l1.length (g.name.getD "") e)) ∧
    (∀ (mi : ModuleInfo) (cache : List TypeInfo) (l1 : List Function)
        (f : Function) (l2 : List Function) (e : FunctionError),
      hooks.module_info_new m v.flags = .ok mi →
      constantsLoop hooks.check_width m.constants m.types 0 m.constants =
        .ok () →
      typesLoop hooks m.constants (hooks.layouter_new m.types m.constants)
        (List.replicate m.types.length default) 0 m.types = (.ok (), cache) →
      globalsLoop hooks cache m.types 0 m.global_variables = .ok () →
      m.functions = l1 ++ f :: l2 →
      (∀ pos (hp : pos < l1.length),
        hooks.validate_function cache (l1.get ⟨pos, hp⟩)
          (mi.functions.getD pos 0) m = .ok ()) →
      hooks.validate_function cache f (mi.functions.getD l1.length 0) m =
        .error e →
      (Validator.validate hooks v m).1 =
        .error (.Function l1.length (f.name.getD "") e)) ∧
    (∀ (mi : ModuleInfo) (cache : List TypeInfo) (l1 : List EntryPoint)
        (d : EntryPoint) (l2 : List EntryPoint) (e : EntryPointError),
      hooks.module_info_new m v.flags = .ok mi →
      constantsLoop hooks.check_width m.constants m.types 0 m.constants =
        .ok () →
      typesLoop hooks m.constants (hooks.layouter_new m.types m.constants)
        (List.replicate m.types.length default) 0 m.types = (.ok (), cache) →
      globalsLoop hooks cache m.types 0 m.global_variables = .ok () →
      functionsLoop hooks cache mi m 0 m.functions = .ok () →
      m.entry_points = l1 ++ d :: l2 →
      (l1.map epKey).Nodup →
      (∀ x ∈ l1, epKey x ≠ epKey d) →
      (∀ pos (hp : pos < l1.length),
        hooks.validate_entry_point cache (l1.get ⟨pos, hp⟩)
          (mi.entry_points.getD pos 0) m = .ok ()) →
      hooks.validate_entry_point cache d
        (mi.entry_points.getD l1.length 0) m = .error e →
      (Validator.validate hooks v m).1 =
        .error (.EntryPoint d.stage d.name e)) := by
  refine ⟨?_, ?_, ?_, ?_, ?_, ?_⟩
  · intro e hA
    unfold Validator.validate validateResult
    simp only []
    simp only [hA]
  · intro mi l1 c l2 e hA hsplit hpre herr
    have hloop := constantsLoop_first_err hooks.check_width m.constants
      m.types c l2 e l1 0
      (fun pos hp => by rw [Nat.zero_add]; exact hpre pos hp)
      (by rw [Nat.zero_add]; exact herr)
    rw [Nat.zero_add] at hloop
    rw [hsplit] at hloop
    unfold Validator.validate validateResult
    simp only []
    rw [hsplit]
    simp only [hA, hloop]
  · intro mi l1 t l2 e hA hC hsplit hpre herr
    have hloop := typesLoop_first_err hooks m.constants
      (hooks.layouter_new m.types m.constants) t l2 e l1
      (List.replicate m.types.length default) 0
      (fun pos hp cache' => by rw [Nat.zero_add]; exact hpre pos hp cache')
      (fun cache' => by rw [Nat.zero_add]; exact herr cache')
    rw [Nat.zero_add] at hloop
    rw [hsplit] at hloop hC
    unfold Validator.validate validateResult
    simp only []
    rw [hsplit]
    simp only [hA, hC]
    rcases htl : typesLoop hooks m.constants
        (hooks.layouter_new (l1 ++ t :: l2) m.constants)
        (List.replicate (l1 ++ t :: l2).length default) 0 (l1 ++ t :: l2)
      with ⟨res, cache⟩
    have hres : res = .error (.Type' l1.length (t.name.getD "") e) := by
      rw [htl] at hloop
      exact hloop
    subst hres
    simp only [htl]
  · intro mi cache l1 g l2 e hA hC hT hsplit hpre herr
    have hloop := globalsLoop_first_err hooks cache m.types g l2 e l1 0
      hpre herr
    rw [Nat.zero_add] at hloop
    unfold Validator.validate validateResult
    simp only []
    rw [hsplit]
    simp only [hA, hC, hT, hloop]
  · intro mi cache l1 f l2 e hA hC hT hG hsplit hpre herr
    have hloop := functionsLoop_first_err hooks cache mi m f l2 e l1 0
      (fun pos hp => by rw [Nat.zero_add]; exact hpre pos hp)
      (by rw [Nat.zero_add]; exact herr)
    rw [Nat.zero_add] at hloop
    unfold Validator.validate validateResult
    simp only []
    rw [hsplit]
    simp only [hA, hC, hT, hG, hloop]
  · intro mi cache l1 d l2 e hA hC hT hG hF hsplit hnodup hne hpre herr
    have hloop := entryPointsLoop_deep_err hooks cache mi m d l2 e l1 [] 0
      (by simp) hnodup
      (fun pos hp => by rw [Nat.zero_add]; exact hpre pos hp)
      (by simp) hne
      (by rw [Nat.zero_add]; exact herr)
    unfold Validator.validate validateResult
    simp only []
    rw [hsplit]
    simp only [hA, hC, hT, hG, hF, hloop]


/-- Hooks whose analyzer always fails. -/
def failAnalyzerHooks : Hooks :=
  ⟨fun _ _ => true, fun _ _ => .error ⟨3⟩, fun _ _ => ⟨0⟩,
   fun _ _ _ _ _ => .ok ⟨0⟩, fun _ _ _ => .ok (), fun _ _ _ _ => .ok (),
   fun _ _ _ _ => .ok ()⟩

/-- Hooks whose type checker always fails. -/
def failTypeHooks : Hooks :=
  ⟨fun _ _ => true, fun _ _ => .ok ⟨[], []⟩, fun _ _ => ⟨0⟩,
   fun _ _ _ _ _ => .error ⟨2⟩, fun _ _ _ => .ok (), fun _ _ _ _ => .ok (),
   fun _ _ _ _ => .ok ()⟩

/-- Hooks whose global-variable checker always fails. -/
def failGlobalHooks : Hooks :=
  ⟨fun _ _ => true, fun _ _ => .ok ⟨[], []⟩, fun _ _ => ⟨0⟩,
   fun _ _ _ _ _ => .ok ⟨0⟩, fun _ _ _ => .error ⟨4⟩, fun _ _ _ _ => .ok (),
   fun _ _ _ _ => .ok ()⟩

/-- Hooks whose function checker always fails. -/
def failFunctionHooks : Hooks :=
  ⟨fun _ _ => true, fun _ _ => .ok ⟨[], []⟩, fun _ _ => ⟨0⟩,
   fun _ _ _ _ _ => .ok ⟨0⟩, fun _ _ _ => .ok (), fun _ _ _ _ => .error ⟨5⟩,
   fun _ _ _ _ => .ok ()⟩

/-- A module containing exactly one (named) type. -/
def oneTypeModule : Module := ⟨[⟨some "T", .Struct⟩], [], [], [], []⟩

/-- A module containing exactly one (named) global variable. -/
def oneGlobalModule : Module := ⟨[], [], [⟨some "g", 0⟩], [], []⟩

/-- A module containing exactly one (named) function. -/
def oneFunModule : Module := ⟨[], [], [], [⟨some "f", 0⟩], []⟩

/-- A module containing exactly one entry point. -/
def oneEpModule : Module := ⟨[], [], [], [], [⟨.Compute, "e", 0⟩]⟩

/-- C3 witness: each pass's first-failure behavior exercised on a concrete
module with a concrete failing checker. -/
theorem c3_pass_order_witness :
    (Validator.validate failAnalyzerHooks default emptyModule).1 =
        .error (.Analysis ⟨3⟩) ∧
      (Validator.validate trivialHooks default dupEpModule).1 =
        .error (.Constant 0 "" .InvalidType) ∧
      (Validator.validate failTypeHooks default oneTypeModule).1 =
        .error (.Type' 0 "T" ⟨2⟩) ∧
      (Validator.validate failGlobalHooks default oneGlobalModule).1 =
        .error (.GlobalVariable 0 "g" ⟨4⟩) ∧
      (Validator.validate failFunctionHooks default oneFunModule).1 =
        .error (.Function 0 "f" ⟨5⟩) ∧
      (Validator.validate failEpHooks default oneEpModule).1 =
        .error (.EntryPoint .Compute "e" (.Other 7)) := by
  refine ⟨?_, ?_, ?_, ?_, ?_, ?_⟩
  · exact (c3_pass_order failAnalyzerHooks default emptyModule).1 ⟨3⟩ rfl
  · exact (c3_pass_order trivialHooks default dupEpModule).2.1 ⟨[], []⟩ []
      ⟨none, .Composite 0 []⟩ [] .InvalidType rfl rfl
      (fun pos hp => absurd hp (by simp)) rfl
  · exact (c3_pass_order failTypeHooks default oneTypeModule).2.2.1 ⟨[], []⟩ []
      ⟨some "T", .Struct⟩ [] ⟨2⟩ rfl rfl rfl
      (fun pos hp _ => absurd hp (by simp)) (fun _ => rfl)
  · exact (c3_pass_order failGlobalHooks default oneGlobalModule).2.2.2.1
      ⟨[], []⟩ [] [] ⟨some "g", 0⟩ [] ⟨4⟩ rfl rfl rfl rfl
      (fun x hx => absurd hx (by simp)) rfl
  · exact (c3_pass_order failFunctionHooks default oneFunModule).2.2.2.2.1
      ⟨[], []⟩ [] [] ⟨some "f", 0⟩ [] ⟨5⟩ rfl rfl rfl rfl rfl
      (fun pos hp => absurd hp (by simp)) rfl
  · exact (c3_pass_order failEpHooks default oneEpModule).2.2.2.2.2
      ⟨[], []⟩ [] [] ⟨.Compute, "e", 0⟩ [] (.Other 7) rfl rfl rfl rfl rfl rfl
      (by simp) (fun x hx => absurd hx (by simp))
      (fun pos hp => absurd hp (by simp)) rfl

end Naga
